import Mathlib

/-!
Verification of `fuidshift.py`: a uid/gid shifter that remaps numeric
ownership of a directory tree by a fixed signed offset while preserving
permission bits, extended attributes and POSIX ACLs.

The development shallowly embeds the four components of the source:
* `shift_id` — the boundary-aware offset arithmetic,
* `modify_acl_blob` — the POSIX ACL binary codec (parse, shift, re-serialize),
* `shift_file` — the per-entry metadata-preserving shift protocol, modelled
  as the trace of mutating filesystem calls it performs,
* the bottom-up traversal of `main`, modelled over an inductive tree.

Bytes are `Nat` values (with explicit `< 256` side conditions where the
source relies on the `bytes` type); Python integers are `Int`; the
`struct.error` raised by `struct.pack` on out-of-range values is modelled
with `Option`, matching the `try`/`except` of the source.
-/

namespace Fuidshift

/-- POSIX ACL constants from the source. -/
def ACL_EA_VERSION : Nat := 2

def ACL_TAG_USER : Nat := 0x02

def ACL_TAG_GROUP : Nat := 0x08

def ACL_ENTRY_SIZE : Nat := 8

def ACL_HEADER_SIZE : Nat := 4

/-- Embedding of `shift_id(current_id, offset)`: shift up if `offset > 0`
and the id is below `abs(offset)`, shift down if `offset < 0` and the id is
at or above `abs(offset)`, otherwise return the id unchanged. -/
def shift_id (current_id offset : Int) : Int :=
  let abs_offset : Int := (offset.natAbs : Int)
  if 0 < offset then
    if current_id < abs_offset then current_id + offset else current_id
  else
    if abs_offset ≤ current_id then current_id + offset else current_id

/-- Little-endian 16-bit decode of two bytes (`struct.unpack` of `<H`). -/
def le16 (b0 b1 : Nat) : Nat := b0 + 256 * b1

/-- Little-endian 32-bit decode of four bytes (`struct.unpack` of `<I`). -/
def le32 (b0 b1 b2 b3 : Nat) : Nat :=
  b0 + 256 * b1 + 65536 * b2 + 16777216 * b3

/-- Little-endian 16-bit encode (`struct.pack` of `<H`), byte list. -/
def pack16 (v : Nat) : List Nat := [v % 256, v / 256 % 256]

/-- Little-endian 32-bit encode (`struct.pack` of `<I`), byte list. -/
def pack32 (v : Nat) : List Nat :=
  [v % 256, v / 256 % 256, v / 65536 % 256, v / 16777216 % 256]

/-- Packing of one ACL entry, `struct.pack('<HHI', tag, perm, new_id)`.
Python's `struct.pack` raises `struct.error` when a value is out of range
for its field; that failure is modelled as `none`. -/
def pack_entry (tag perm : Nat) (new_id : Int) : Option (List Nat) :=
  if tag < 65536 ∧ perm < 65536 ∧ 0 ≤ new_id ∧ new_id < 4294967296 then
    some (pack16 tag ++ pack16 perm ++ pack32 new_id.toNat)
  else
    none

/-- Embedding of the entry loop of `modify_acl_blob`: decode each 8-byte
entry as `(tag, perm, id)` little-endian, shift the id when the tag is
`ACL_TAG_USER` or `ACL_TAG_GROUP`, and re-encode.  `none` models a
`struct.error` escaping the loop. -/
def shift_entries (body : List Nat) (offset : Int) : Option (List Nat) :=
  match body with
  | t0 :: t1 :: p0 :: p1 :: i0 :: i1 :: i2 :: i3 :: rest =>
    let tag := le16 t0 t1
    let perm := le16 p0 p1
    let old_id := le32 i0 i1 i2 i3
    let new_id : Int :=
      if tag = ACL_TAG_USER ∨ tag = ACL_TAG_GROUP then
        shift_id (old_id : Int) offset
      else
        (old_id : Int)
    Option.bind (pack_entry tag perm new_id) (fun e =>
      Option.bind (shift_entries rest offset) (fun r => some (e ++ r)))
  | [] => some []
  | _ => none

/-- Embedding of `modify_acl_blob(blob, offset)`: pass the blob through
unchanged when it is shorter than the 4-byte header, the header is not
version 2, the body is not a multiple of the 8-byte entry size, or a
`struct.error` occurs; otherwise copy the header and re-encode every entry
with user/group ids shifted. -/
def modify_acl_blob (blob : List Nat) (offset : Int) : List Nat :=
  match blob with
  | b0 :: b1 :: b2 :: b3 :: body =>
    if le32 b0 b1 b2 b3 ≠ ACL_EA_VERSION then blob
    else if body.length % ACL_ENTRY_SIZE ≠ 0 then blob
    else
      match shift_entries body offset with
      | some out => b0 :: b1 :: b2 :: b3 :: out
      | none => blob
  | _ => blob

/-- Header version of a blob, when the blob is long enough to carry one. -/
def header_version (blob : List Nat) : Option Nat :=
  match blob with
  | b0 :: b1 :: b2 :: b3 :: _ => some (le32 b0 b1 b2 b3)
  | _ => none

/-- Validity of a byte string: every element is an actual byte. -/
def bytes_ok (l : List Nat) : Bool := l.all (fun b => b < 256)

/- ### Arithmetic claims about `shift_id` -/

/-- Helper: `shift_id` never produces a negative id from a non-negative one. -/
theorem shift_id_nonneg (current_id offset : Int) (h : 0 ≤ current_id) :
    0 ≤ shift_id current_id offset := by
  simp only [shift_id]
  split <;> split <;> omega

/-- C1: for every non-negative id and non-zero offset, `shift_id` obeys the
boundary law: with `offset > 0` the result is `id + offset` exactly when
`id < |offset|` and `id` otherwise; with `offset < 0` the result is
`id + offset` exactly when `id ≥ |offset|` and `id` otherwise. -/
theorem shift_id_boundary_law (i o : Int) (hi : 0 ≤ i) (ho : o ≠ 0) :
    (0 < o → ((shift_id i o = i + o ↔ i < |o|) ∧ (¬ i < |o| → shift_id i o = i)))
    ∧ (o < 0 → ((shift_id i o = i + o ↔ |o| ≤ i) ∧ (¬ |o| ≤ i → shift_id i o = i))) := by
  simp only [shift_id]
  constructor
  · intro hpos
    rw [abs_of_pos hpos]
    constructor
    · constructor
      · intro heq
        split at heq <;> split at heq <;> omega
      · intro hlt
        split <;> split <;> omega
    · intro hge
      split <;> split <;> omega
  · intro hneg
    rw [abs_of_neg hneg]
    constructor
    · constructor
      · intro heq
        split at heq <;> split at heq <;> omega
      · intro hge
        split <;> split <;> omega
    · intro hlt
      split <;> split <;> omega

/-- Witness for C1 at `i = 5`, `o = 3`. -/
theorem shift_id_boundary_law_witness :
    (0 < (3 : Int) →
      ((shift_id 5 3 = 5 + 3 ↔ (5 : Int) < |(3 : Int)|)
        ∧ (¬ (5 : Int) < |(3 : Int)| → shift_id 5 3 = 5)))
    ∧ ((3 : Int) < 0 →
      ((shift_id 5 3 = 5 + 3 ↔ |(3 : Int)| ≤ 5)
        ∧ (¬ |(3 : Int)| ≤ 5 → shift_id 5 3 = 5))) :=
  shift_id_boundary_law 5 3 (by decide) (by decide)

/-- C9: for every non-negative id and negative offset, `shift_id` never
returns a negative result. -/
theorem shift_id_no_underflow (i o : Int) (hi : 0 ≤ i) (ho : o < 0) :
    0 ≤ shift_id i o :=
  shift_id_nonneg i o hi

/-- Witness for C9 at `i = 7`, `o = -5`. -/
theorem shift_id_no_underflow_witness : 0 ≤ shift_id 7 (-5) :=
  shift_id_no_underflow 7 (-5) (by decide) (by decide)

/-- C10: for every non-negative id and positive offset, `shift_id` is
idempotent: a shifted id lands at or above the offset and is thereafter
outside the triggering range. -/
theorem shift_id_idempotent (i o : Int) (hi : 0 ≤ i) (ho : 0 < o) :
    shift_id (shift_id i o) o = shift_id i o := by
  have habs : (o.natAbs : Int) = o := by omega
  simp only [shift_id, habs, if_pos ho]
  by_cases h2 : i < o
  · rw [if_pos h2, if_neg (by omega)]
  · rw [if_neg h2, if_neg h2]

/-- Witness for C10 at `i = 42`, `o = 100000`. -/
theorem shift_id_idempotent_witness :
    shift_id (shift_id 42 100000) 100000 = shift_id 42 100000 :=
  shift_id_idempotent 42 100000 (by decide) (by decide)

/- ### Codec claims about `modify_acl_blob` -/

/-- C3: `modify_acl_blob` is total (the Lean embedding returns on all
inputs, modelling "never raises") and returns its input byte-for-byte
unchanged whenever the input is shorter than 4 bytes, its first 4 bytes
are not the little-endian value 2, the remaining length is not an exact
multiple of 8, or a structural packing failure occurs inside the entry
loop (modelled as `shift_entries` returning `none`). -/
theorem modify_acl_blob_passthrough (blob : List Nat) (offset : Int)
    (h : blob.length < ACL_HEADER_SIZE
      ∨ header_version blob ≠ some ACL_EA_VERSION
      ∨ (blob.length - ACL_HEADER_SIZE) % ACL_ENTRY_SIZE ≠ 0
      ∨ shift_entries (blob.drop ACL_HEADER_SIZE) offset = none) :
    modify_acl_blob blob offset = blob := by
  match blob with
  | [] => rfl
  | [_] => rfl
  | [_, _] => rfl
  | [_, _, _] => rfl
  | b0 :: b1 :: b2 :: b3 :: body =>
    rcases h with h | h | h | h
    · simp only [List.length_cons, ACL_HEADER_SIZE] at h
      omega
    · have hv : le32 b0 b1 b2 b3 ≠ ACL_EA_VERSION := by
        simpa [header_version] using h
      simp [modify_acl_blob, hv]
    · have hl : body.length % ACL_ENTRY_SIZE ≠ 0 := by
        have hlen : (b0 :: b1 :: b2 :: b3 :: body).length - ACL_HEADER_SIZE
            = body.length := by
          simp [ACL_HEADER_SIZE]
        rwa [hlen] at h
      by_cases hv : le32 b0 b1 b2 b3 = ACL_EA_VERSION
      · simp [modify_acl_blob, hv, hl]
      · simp [modify_acl_blob, hv]
    · have hd : (b0 :: b1 :: b2 :: b3 :: body).drop ACL_HEADER_SIZE = body := rfl
      rw [hd] at h
      by_cases hv : le32 b0 b1 b2 b3 = ACL_EA_VERSION
      · by_cases hl : body.length % ACL_ENTRY_SIZE = 0
        · simp [modify_acl_blob, hv, hl, h]
        · simp [modify_acl_blob, hv, hl]
      · simp [modify_acl_blob, hv]

/-- Witness for C3 on the 2-byte blob `[7, 7]`. -/
theorem modify_acl_blob_passthrough_witness :
    modify_acl_blob [7, 7] 100000 = [7, 7] :=
  modify_acl_blob_passthrough [7, 7] 100000 (by decide)

/-- Helper: packing the 16-bit decode of two bytes restores those bytes. -/
theorem pack16_le16 (b0 b1 : Nat) (h0 : b0 < 256) (h1 : b1 < 256) :
    pack16 (le16 b0 b1) = [b0, b1] := by
  simp only [pack16, le16, List.cons.injEq, and_true]
  omega

/-- Helper: packing the 32-bit decode of four bytes restores those bytes. -/
theorem pack32_le32 (b0 b1 b2 b3 : Nat)
    (h0 : b0 < 256) (h1 : b1 < 256) (h2 : b2 < 256) (h3 : b3 < 256) :
    pack32 (le32 b0 b1 b2 b3) = [b0, b1, b2, b3] := by
  simp only [pack32, le32, List.cons.injEq, and_true]
  omega

/-- Helper: a 16-bit decode of two bytes is in range for `<H` packing. -/
theorem le16_lt (b0 b1 : Nat) (h0 : b0 < 256) (h1 : b1 < 256) :
    le16 b0 b1 < 65536 := by
  simp only [le16]; omega

/-- Helper: a 32-bit decode of four bytes is in range for `<I` packing. -/
theorem le32_lt (b0 b1 b2 b3 : Nat)
    (h0 : b0 < 256) (h1 : b1 < 256) (h2 : b2 < 256) (h3 : b3 < 256) :
    le32 b0 b1 b2 b3 < 4294967296 := by
  simp only [le32]; omega

/-- Entry-wise description of what the shift is claimed to do to a
well-formed body, written from the spec's words: every entry keeps its
position and its tag and permission bytes; an entry tagged `ACL_TAG_USER`
or `ACL_TAG_GROUP` has its id field re-encoded as `shift_id` of the
decoded id; every other entry is byte-identical to the input. -/
def entries_image (body : List Nat) (offset : Int) : List Nat :=
  match body with
  | t0 :: t1 :: p0 :: p1 :: i0 :: i1 :: i2 :: i3 :: rest =>
    (if le16 t0 t1 = ACL_TAG_USER ∨ le16 t0 t1 = ACL_TAG_GROUP then
      t0 :: t1 :: p0 :: p1
        :: pack32 (shift_id (le32 i0 i1 i2 i3 : Int) offset).toNat
    else
      [t0, t1, p0, p1, i0, i1, i2, i3]) ++ entries_image rest offset
  | _ => []

/-- Whether every user/group entry of the body has a shifted id that fits
the 32-bit id field (so that `struct.pack` cannot fail). -/
def ids_fit (body : List Nat) (offset : Int) : Bool :=
  match body with
  | t0 :: t1 :: _ :: _ :: i0 :: i1 :: i2 :: i3 :: rest =>
    (if le16 t0 t1 = ACL_TAG_USER ∨ le16 t0 t1 = ACL_TAG_GROUP then
      decide (shift_id (le32 i0 i1 i2 i3 : Int) offset < 4294967296)
    else true) && ids_fit rest offset
  | _ => true

/-- Helper: on a well-formed byte body whose shifted ids all fit 32 bits,
the entry loop succeeds and produces exactly the entry-wise image. -/
theorem shift_entries_eq_image :
    ∀ (body : List Nat) (offset : Int), bytes_ok body = true →
      ids_fit body offset = true → body.length % ACL_ENTRY_SIZE = 0 →
      shift_entries body offset = some (entries_image body offset)
  | [], _, _, _, _ => rfl
  | [_], _, _, _, hl | [_, _], _, _, _, hl | [_, _, _], _, _, _, hl
  | [_, _, _, _], _, _, _, hl | [_, _, _, _, _], _, _, _, hl
  | [_, _, _, _, _, _], _, _, _, hl
  | [_, _, _, _, _, _, _], _, _, _, hl => by
    simp [ACL_ENTRY_SIZE] at hl
  | t0 :: t1 :: p0 :: p1 :: i0 :: i1 :: i2 :: i3 :: rest, offset, hb, hf, hl => by
    simp only [bytes_ok, List.all_cons, Bool.and_eq_true, decide_eq_true_eq] at hb
    obtain ⟨h0, h1, h2, h3, h4, h5, h6, h7, hbrest⟩ := hb
    simp only [ids_fit, Bool.and_eq_true] at hf
    obtain ⟨hfhead, hfrest⟩ := hf
    have hlrest : rest.length % ACL_ENTRY_SIZE = 0 := by
      simp only [List.length_cons, ACL_ENTRY_SIZE] at hl ⊢
      omega
    have ih := shift_entries_eq_image rest offset hbrest hfrest hlrest
    simp only [shift_entries, entries_image]
    by_cases htag : le16 t0 t1 = ACL_TAG_USER ∨ le16 t0 t1 = ACL_TAG_GROUP
    · rw [if_pos htag, if_pos htag]
      have hfit : shift_id (le32 i0 i1 i2 i3 : Int) offset < 4294967296 := by
        rw [if_pos htag] at hfhead
        exact of_decide_eq_true hfhead
      have hnn : 0 ≤ shift_id (le32 i0 i1 i2 i3 : Int) offset :=
        shift_id_nonneg _ _ (Int.natCast_nonneg _)
      rw [pack_entry, if_pos ⟨le16_lt t0 t1 h0 h1, le16_lt p0 p1 h2 h3, hnn, hfit⟩]
      rw [ih]
      simp [pack16_le16 t0 t1 h0 h1, pack16_le16 p0 p1 h2 h3]
    · rw [if_neg htag, if_neg htag]
      have hlt := le32_lt i0 i1 i2 i3 h4 h5 h6 h7
      rw [pack_entry, if_pos ⟨le16_lt t0 t1 h0 h1, le16_lt p0 p1 h2 h3,
        Int.natCast_nonneg _, by exact_mod_cast hlt⟩]
      rw [ih]
      simp [pack16_le16 t0 t1 h0 h1, pack16_le16 p0 p1 h2 h3,
        pack32_le32 i0 i1 i2 i3 h4 h5 h6 h7]

/-- C2 (amended): for every well-formed ACL blob (4-byte little-endian
header equal to version 2, body an exact multiple of 8 bytes of actual
byte values) and every non-zero offset whose shifted user/group ids all
fit the 32-bit id field, `modify_acl_blob` keeps the header bytes
unchanged and maps every entry to its entry-wise image: tag and permission
bytes preserved in place, the id field of `ACL_TAG_USER`/`ACL_TAG_GROUP`
entries re-encoded as `shift_id` of the decoded id, and every other entry
byte-identical to the input (see `entries_image`). -/
theorem modify_acl_blob_shifts (b0 b1 b2 b3 : Nat) (body : List Nat) (offset : Int)
    (hver : le32 b0 b1 b2 b3 = ACL_EA_VERSION)
    (hlen : body.length % ACL_ENTRY_SIZE = 0)
    (hbytes : bytes_ok body = true)
    (hoff : offset ≠ 0)
    (hfit : ids_fit body offset = true) :
    modify_acl_blob (b0 :: b1 :: b2 :: b3 :: body) offset
      = b0 :: b1 :: b2 :: b3 :: entries_image body offset := by
  have hse := shift_entries_eq_image body offset hbytes hfit hlen
  simp [modify_acl_blob, hver, hlen, hse]

/-- Witness for C2: one USER entry with id 1000 shifted by +100000. -/
theorem modify_acl_blob_shifts_witness :
    modify_acl_blob [2, 0, 0, 0, 2, 0, 7, 0, 232, 3, 0, 0] 100000
      = 2 :: 0 :: 0 :: 0 :: entries_image [2, 0, 7, 0, 232, 3, 0, 0] 100000 :=
  modify_acl_blob_shifts 2 0 0 0 [2, 0, 7, 0, 232, 3, 0, 0] 100000
    (by decide) (by decide) (by decide) (by decide) (by decide)

/-- Counterexample to C2 as stated: with the well-formed blob holding one
USER entry of id 0 and the non-zero offset `2^32`, the shifted id does not
fit the 32-bit id field, the pack step fails, and the code returns the
input blob unchanged — so the output id field (still 0) is not the encoding
of `shift_id 0 (2^32) = 2^32`. -/
theorem modify_acl_blob_shifts_cex :
    modify_acl_blob [2, 0, 0, 0, 2, 0, 0, 0, 0, 0, 0, 0] 4294967296
        = [2, 0, 0, 0, 2, 0, 0, 0, 0, 0, 0, 0]
      ∧ shift_id 0 4294967296 ≠ 0 := by
  constructor
  · decide
  · decide

/-- Whether every user/group entry of the body carries an id outside the
shift's triggering range: at or above `|offset|` when `offset > 0`, below
`|offset|` otherwise. -/
def no_trigger (body : List Nat) (offset : Int) : Bool :=
  match body with
  | t0 :: t1 :: _ :: _ :: i0 :: i1 :: i2 :: i3 :: rest =>
    (if le16 t0 t1 = ACL_TAG_USER ∨ le16 t0 t1 = ACL_TAG_GROUP then
      (if 0 < offset then
        decide ((offset.natAbs : Int) ≤ (le32 i0 i1 i2 i3 : Int))
      else
        decide ((le32 i0 i1 i2 i3 : Int) < (offset.natAbs : Int)))
    else true) && no_trigger rest offset
  | _ => true

/-- Helper: `shift_id` fixes an id outside the triggering range. -/
theorem shift_id_out_of_range (i o : Int)
    (h : if 0 < o then ((o.natAbs : Int) ≤ i) else (i < (o.natAbs : Int))) :
    shift_id i o = i := by
  by_cases hpos : 0 < o
  · rw [if_pos hpos] at h
    simp only [shift_id]
    rw [if_pos hpos, if_neg (by omega)]
  · rw [if_neg hpos] at h
    simp only [shift_id]
    rw [if_neg hpos, if_neg (by omega)]

/-- Helper: when no entry triggers the shift, the entry-wise image is the
body itself, and all shifted ids trivially fit. -/
theorem entries_image_no_trigger :
    ∀ (body : List Nat) (offset : Int), bytes_ok body = true →
      no_trigger body offset = true → body.length % ACL_ENTRY_SIZE = 0 →
      entries_image body offset = body ∧ ids_fit body offset = true
  | [], _, _, _, _ => ⟨rfl, rfl⟩
  | [_], _, _, _, hl | [_, _], _, _, _, hl | [_, _, _], _, _, _, hl
  | [_, _, _, _], _, _, _, hl | [_, _, _, _, _], _, _, _, hl
  | [_, _, _, _, _, _], _, _, _, hl
  | [_, _, _, _, _, _, _], _, _, _, hl => by
    simp [ACL_ENTRY_SIZE] at hl
  | t0 :: t1 :: p0 :: p1 :: i0 :: i1 :: i2 :: i3 :: rest, offset, hb, hnt, hl => by
    simp only [bytes_ok, List.all_cons, Bool.and_eq_true, decide_eq_true_eq] at hb
    obtain ⟨h0, h1, h2, h3, h4, h5, h6, h7, hbrest⟩ := hb
    simp only [no_trigger, Bool.and_eq_true] at hnt
    obtain ⟨hnthead, hntrest⟩ := hnt
    have hlrest : rest.length % ACL_ENTRY_SIZE = 0 := by
      simp only [List.length_cons, ACL_ENTRY_SIZE] at hl ⊢
      omega
    have ih := entries_image_no_trigger rest offset hbrest hntrest hlrest
    by_cases htag : le16 t0 t1 = ACL_TAG_USER ∨ le16 t0 t1 = ACL_TAG_GROUP
    · rw [if_pos htag] at hnthead
      have hout : shift_id (le32 i0 i1 i2 i3 : Int) offset = le32 i0 i1 i2 i3 := by
        apply shift_id_out_of_range
        by_cases hpos : 0 < offset
        · rw [if_pos hpos] at hnthead ⊢
          exact of_decide_eq_true hnthead
        · rw [if_neg hpos] at hnthead ⊢
          exact of_decide_eq_true hnthead
      constructor
      · simp only [entries_image, if_pos htag, hout, Int.toNat_natCast]
        rw [pack32_le32 i0 i1 i2 i3 h4 h5 h6 h7]
        simpa using ih.1
      · simp only [ids_fit, if_pos htag, hout, Bool.and_eq_true]
        refine ⟨decide_eq_true ?_, ih.2⟩
        exact_mod_cast le32_lt i0 i1 i2 i3 h4 h5 h6 h7
    · constructor
      · simp only [entries_image, if_neg htag]
        simpa using ih.1
      · simp only [ids_fit, if_neg htag, Bool.and_eq_true]
        exact ⟨by simp, ih.2⟩

/-- C8: for every well-formed ACL blob in which every user/group entry
carries an id outside the shift's triggering range for the given non-zero
offset, `modify_acl_blob` returns output byte-identical to the input. -/
theorem modify_acl_blob_identity (b0 b1 b2 b3 : Nat) (body : List Nat) (offset : Int)
    (hver : le32 b0 b1 b2 b3 = ACL_EA_VERSION)
    (hlen : body.length % ACL_ENTRY_SIZE = 0)
    (hbytes : bytes_ok body = true)
    (hoff : offset ≠ 0)
    (hnt : no_trigger body offset = true) :
    modify_acl_blob (b0 :: b1 :: b2 :: b3 :: body) offset
      = b0 :: b1 :: b2 :: b3 :: body := by
  obtain ⟨himg, hfit⟩ := entries_image_no_trigger body offset hbytes hnt hlen
  have hse := shift_entries_eq_image body offset hbytes hfit hlen
  simp [modify_acl_blob, hver, hlen, hse, himg]

/-- Witness for C8: a USER entry with id 5 and offset -100 is out of
range, so the blob round-trips byte-identically. -/
theorem modify_acl_blob_identity_witness :
    modify_acl_blob [2, 0, 0, 0, 2, 0, 7, 0, 5, 0, 0, 0] (-100)
      = 2 :: 0 :: 0 :: 0 :: [2, 0, 7, 0, 5, 0, 0, 0] :=
  modify_acl_blob_identity 2 0 0 0 [2, 0, 7, 0, 5, 0, 0, 0] (-100)
    (by decide) (by decide) (by decide) (by decide) (by decide)

/- ### The per-entry shift protocol `shift_file` -/

/-- Metadata of one filesystem entry as `shift_file` reads it: owner and
group from `os.lstat`, the raw `st_mode`, and the result of
`os.getxattr` for each name listed by `os.listxattr` (`none` models an
`OSError` raised while reading that one attribute). -/
structure EntryMeta where
  uid : Nat
  gid : Nat
  mode : Nat
  xattrs : List (String × Option (List Nat))

/-- Mutating filesystem calls that `shift_file` can perform. -/
inductive FsOp where
  | lchown (uid gid : Int)
  | chmod (mode : Nat)
  | setxattr (name : String) (value : List Nat)
deriving DecidableEq

/-- Embedding of `stat.S_ISLNK`: the file-type bits of `st_mode` equal
`S_IFLNK` (`0o120000`). -/
def S_ISLNK (mode : Nat) : Bool := mode / 4096 % 16 = 10

/-- Embedding of the read/classify loop over `os.listxattr`: the two
well-known ACL attribute names are routed through `modify_acl_blob`,
every other value is kept verbatim. -/
def backup_value (name : String) (value : List Nat) (offset : Int) : List Nat :=
  if name = "system.posix_acl_access" ∨ name = "system.posix_acl_default" then
    modify_acl_blob value offset
  else
    value

/-- Backup set built by `shift_file`: attributes whose read failed are
dropped (`OSError` → `pass`), the rest are stored (ACLs shifted). -/
def backup_xattrs (xs : List (String × Option (List Nat))) (offset : Int) :
    List (String × List Nat) :=
  xs.filterMap (fun p => p.2.map (fun v => (p.1, backup_value p.1 v offset)))

/-- Embedding of `shift_file(path, offset)` as the sequence of mutating
filesystem calls it performs on the entry, paired with the warnings it
surfaces: skip entirely when neither the uid nor the gid would change;
otherwise `lchown` to the shifted ids, re-apply the permission bits with
`chmod(S_IMODE(old_mode))` unless the entry is a symlink, then restore
every backed-up extended attribute.  The read loop tolerates a
per-attribute failure silently (`except OSError: pass` — the attribute is
dropped without any message), and the only warnings the source can print
come from runtime failures of the chmod/setxattr restore calls; in the
executions this pure model represents the restore calls succeed, so the
surfaced warning list is empty. -/
def shift_file (m : EntryMeta) (offset : Int) : List FsOp × List String :=
  let new_uid := shift_id (m.uid : Int) offset
  let new_gid := shift_id (m.gid : Int) offset
  if new_uid = (m.uid : Int) ∧ new_gid = (m.gid : Int) then
    ([], [])
  else
    let backup := backup_xattrs m.xattrs offset
    ([FsOp.lchown new_uid new_gid]
      ++ (if S_ISLNK m.mode then [] else [FsOp.chmod (m.mode % 4096)])
      ++ backup.map (fun p => FsOp.setxattr p.1 p.2),
     [])

/-- On-filesystem state of one entry, for replaying the call trace. -/
structure FsState where
  uid : Int
  gid : Int
  mode : Nat
  xattrs : List (String × List Nat)

/-- Association-list update used to replay `setxattr`. -/
def set_assoc (xs : List (String × List Nat)) (n : String) (v : List Nat) :
    List (String × List Nat) :=
  match xs with
  | [] => [(n, v)]
  | (k, w) :: rest => if k = n then (n, v) :: rest else (k, w) :: set_assoc rest n v

/-- Modelled from the spec: effect of each call on the entry's state.  The
kernel side effect of an ownership change — clearing the setuid (`0o4000`)
and setgid (`0o2000`) bits — is taken from §4.3 of the spec ("this is
expected to silently clear any setuid/setgid/capability state at the
kernel level"); `chmod` replaces the low 12 permission bits and keeps the
file-type bits. -/
def apply_op (st : FsState) : FsOp → FsState
  | .lchown u g =>
    { st with
      uid := u
      gid := g
      mode := st.mode - st.mode % 4096 + st.mode % 1024 }
  | .chmod m => { st with mode := st.mode - st.mode % 4096 + m }
  | .setxattr n v => { st with xattrs := set_assoc st.xattrs n v }

/-- Replay of a call trace from an initial state. -/
def apply_ops (st : FsState) (ops : List FsOp) : FsState :=
  ops.foldl apply_op st

/-- C5: when the computed new owner and group both equal the originals,
the protocol terminates early with no filesystem mutation at all — no
ownership change, no mode change, no extended-attribute write — and no
warnings; in particular a second run with the same offset performs zero
mutating calls on an already-shifted entry. -/
theorem shift_file_skip (m : EntryMeta) (offset : Int)
    (h : shift_id (m.uid : Int) offset = (m.uid : Int)
      ∧ shift_id (m.gid : Int) offset = (m.gid : Int)) :
    shift_file m offset = ([], []) := by
  simp [shift_file, h.1, h.2]

/-- Witness for C5: owner `(200000, 200000)` with offset `+100000` is
already outside the triggering range, so nothing is mutated. -/
theorem shift_file_skip_witness :
    shift_file ⟨200000, 200000, 33188, [("user.a", some [1])]⟩ 100000 = ([], []) :=
  shift_file_skip ⟨200000, 200000, 33188, [("user.a", some [1])]⟩ 100000 (by decide)

/-- Helper: replaying `setxattr` calls never touches owner, group or mode. -/
theorem apply_setxattrs_fields :
    ∀ (ps : List (String × List Nat)) (st : FsState),
      (apply_ops st (ps.map (fun p => FsOp.setxattr p.1 p.2))).uid = st.uid
      ∧ (apply_ops st (ps.map (fun p => FsOp.setxattr p.1 p.2))).gid = st.gid
      ∧ (apply_ops st (ps.map (fun p => FsOp.setxattr p.1 p.2))).mode = st.mode
  | [], _ => ⟨rfl, rfl, rfl⟩
  | p :: ps, st => by
    have h := apply_setxattrs_fields ps (apply_op st (FsOp.setxattr p.1 p.2))
    simpa [apply_ops, apply_op] using h

/-- Helper: field values after replaying the full mutation trace of a
non-symlink entry — `lchown`, then `chmod k`, then the `setxattr` calls. -/
theorem apply_ops_shift_trace (st : FsState) (u g : Int) (k : Nat)
    (ps : List (String × List Nat)) :
    (apply_ops st (FsOp.lchown u g :: FsOp.chmod k
        :: ps.map (fun p => FsOp.setxattr p.1 p.2))).uid = u
    ∧ (apply_ops st (FsOp.lchown u g :: FsOp.chmod k
        :: ps.map (fun p => FsOp.setxattr p.1 p.2))).gid = g
    ∧ (apply_ops st (FsOp.lchown u g :: FsOp.chmod k
        :: ps.map (fun p => FsOp.setxattr p.1 p.2))).mode
      = st.mode - st.mode % 4096 + k := by
  have hstep : apply_ops st (FsOp.lchown u g :: FsOp.chmod k
      :: ps.map (fun p => FsOp.setxattr p.1 p.2))
      = apply_ops (apply_op (apply_op st (FsOp.lchown u g)) (FsOp.chmod k))
        (ps.map (fun p => FsOp.setxattr p.1 p.2)) := rfl
  obtain ⟨hu, hg, hm⟩ := apply_setxattrs_fields ps
    (apply_op (apply_op st (FsOp.lchown u g)) (FsOp.chmod k))
  rw [hstep]
  refine ⟨by rw [hu]; rfl, by rw [hg]; rfl, ?_⟩
  rw [hm]
  show st.mode - st.mode % 4096 + st.mode % 1024
      - (st.mode - st.mode % 4096 + st.mode % 1024) % 4096 + k
    = st.mode - st.mode % 4096 + k
  omega

/-- C6: for a non-symlink entry whose ownership actually changes, replaying
the trace of `shift_file` yields the shifted owner and group and restores
the full original mode — the `chmod(S_IMODE(old_mode))` step undoes the
kernel's clearing of the setuid/setgid bits; for a symlink entry the trace
contains no `chmod` call at all. -/
theorem shift_file_restores_mode (m : EntryMeta) (offset : Int)
    (xs0 : List (String × List Nat))
    (hch : ¬(shift_id (m.uid : Int) offset = (m.uid : Int)
      ∧ shift_id (m.gid : Int) offset = (m.gid : Int))) :
    (S_ISLNK m.mode = false →
      (apply_ops ⟨m.uid, m.gid, m.mode, xs0⟩ (shift_file m offset).1).uid
          = shift_id (m.uid : Int) offset
        ∧ (apply_ops ⟨m.uid, m.gid, m.mode, xs0⟩ (shift_file m offset).1).gid
          = shift_id (m.gid : Int) offset
        ∧ (apply_ops ⟨m.uid, m.gid, m.mode, xs0⟩ (shift_file m offset).1).mode
          = m.mode)
    ∧ (S_ISLNK m.mode = true → ∀ k, FsOp.chmod k ∉ (shift_file m offset).1) := by
  constructor
  · intro hns
    have hops : (shift_file m offset).1
        = FsOp.lchown (shift_id (m.uid : Int) offset) (shift_id (m.gid : Int) offset)
          :: FsOp.chmod (m.mode % 4096)
          :: (backup_xattrs m.xattrs offset).map (fun p => FsOp.setxattr p.1 p.2) := by
      simp [shift_file, if_neg hch, hns]
    rw [hops]
    obtain ⟨hu, hg, hm⟩ := apply_ops_shift_trace ⟨m.uid, m.gid, m.mode, xs0⟩
      (shift_id (m.uid : Int) offset) (shift_id (m.gid : Int) offset)
      (m.mode % 4096) (backup_xattrs m.xattrs offset)
    refine ⟨hu, hg, ?_⟩
    rw [hm]
    show m.mode - m.mode % 4096 + m.mode % 4096 = m.mode
    omega
  · intro hsl k
    simp only [shift_file, if_neg hch, hsl, if_true, List.append_nil,
      List.cons_append, List.nil_append, List.singleton_append]
    intro hmem
    rcases List.mem_cons.mp hmem with h | h
    · exact FsOp.noConfusion h
    · obtain ⟨p, _, hp⟩ := List.mem_map.mp h
      exact FsOp.noConfusion hp

/-- Witness for C6: the spec's end-to-end scenario — a regular file with
`st_mode = 0o106755`, owner `(1000, 1000)`, offset `+100000` — ends with
owner `(101000, 101000)` and its full mode restored. -/
theorem shift_file_restores_mode_witness :
    ¬(shift_id ((1000 : Nat) : Int) 100000 = ((1000 : Nat) : Int)
      ∧ shift_id ((1000 : Nat) : Int) 100000 = ((1000 : Nat) : Int))
    ∧ ((apply_ops ⟨1000, 1000, 36333, []⟩
          (shift_file ⟨1000, 1000, 36333, []⟩ 100000).1).uid
        = shift_id ((1000 : Nat) : Int) 100000
      ∧ (apply_ops ⟨1000, 1000, 36333, []⟩
          (shift_file ⟨1000, 1000, 36333, []⟩ 100000).1).gid
        = shift_id ((1000 : Nat) : Int) 100000
      ∧ (apply_ops ⟨1000, 1000, 36333, []⟩
          (shift_file ⟨1000, 1000, 36333, []⟩ 100000).1).mode
        = 36333) :=
  ⟨by decide,
    (shift_file_restores_mode ⟨1000, 1000, 36333, []⟩ 100000 [] (by decide)).1 rfl⟩

/-- Counterexample to C7 as stated: with reads `user.a → ok`,
`user.bad → OSError`, `security.selinux → ok` on an entry whose ownership
changes, the failed attribute is dropped from the backup but the protocol
surfaces no warning at all — the source's per-attribute read-failure
branch is `except OSError: pass`, so the claimed warning never exists. -/
theorem shift_file_read_failure_cex :
    backup_xattrs [("user.a", some [1]), ("user.bad", none),
        ("security.selinux", some [2])] 100000
      = [("user.a", [1]), ("security.selinux", [2])]
    ∧ (shift_file ⟨0, 0, 33188, [("user.a", some [1]), ("user.bad", none),
        ("security.selinux", some [2])]⟩ 100000).2 = [] := by
  constructor
  · rfl
  · rfl

/-- C7 (amended): a failure reading a single extended attribute drops
exactly that attribute from the backup set silently — no warning is
surfaced, the read-failure branch of the source being
`except OSError: pass` — and lets the processing of the entry continue:
the ownership change is still performed and every successfully read
attribute is still restored. -/
theorem shift_file_drops_failed_xattr (uid gid mode : Nat)
    (xs ys : List (String × Option (List Nat))) (n : String) (offset : Int)
    (hch : ¬(shift_id (uid : Int) offset = (uid : Int)
      ∧ shift_id (gid : Int) offset = (gid : Int))) :
    backup_xattrs (xs ++ (n, none) :: ys) offset
        = backup_xattrs xs offset ++ backup_xattrs ys offset
    ∧ (shift_file ⟨uid, gid, mode, xs ++ (n, none) :: ys⟩ offset).2 = []
    ∧ FsOp.lchown (shift_id (uid : Int) offset) (shift_id (gid : Int) offset)
        ∈ (shift_file ⟨uid, gid, mode, xs ++ (n, none) :: ys⟩ offset).1
    ∧ ∀ nm v, (nm, some v) ∈ xs ++ ys →
        FsOp.setxattr nm (backup_value nm v offset)
          ∈ (shift_file ⟨uid, gid, mode, xs ++ (n, none) :: ys⟩ offset).1 := by
  refine ⟨?_, ?_, ?_, ?_⟩
  · simp [backup_xattrs, List.filterMap_append]
  · simp [shift_file, if_neg hch]
  · simp only [shift_file, if_neg hch]
    simp
  · intro nm v hmem
    simp only [shift_file, if_neg hch]
    have hfull : ((nm, some v) : String × Option (List Nat))
        ∈ xs ++ (n, none) :: ys := by
      rcases List.mem_append.mp hmem with h | h
      · exact List.mem_append.mpr (Or.inl h)
      · exact List.mem_append.mpr (Or.inr (List.mem_cons_of_mem _ h))
    have hb : (nm, backup_value nm v offset)
        ∈ backup_xattrs (xs ++ (n, none) :: ys) offset :=
      List.mem_filterMap.mpr ⟨(nm, some v), hfull, rfl⟩
    refine List.mem_append.mpr (Or.inr ?_)
    exact List.mem_map.mpr ⟨(nm, backup_value nm v offset), hb, rfl⟩

/-- Witness for C7: with reads `user.a → ok`, `user.bad → OSError`,
`security.selinux → ok`, the bad attribute is dropped from the backup and
the surfaced warning list is empty. -/
theorem shift_file_drops_failed_xattr_witness :
    backup_xattrs ([("user.a", some [1])] ++ ("user.bad", none)
        :: [("security.selinux", some [2])]) 100000
      = backup_xattrs [("user.a", some [1])] 100000
        ++ backup_xattrs [("security.selinux", some [2])] 100000
    ∧ (shift_file ⟨0, 0, 33188, [("user.a", some [1])]
        ++ ("user.bad", none) :: [("security.selinux", some [2])]⟩ 100000).2 = [] :=
  ⟨(shift_file_drops_failed_xattr 0 0 33188 [("user.a", some [1])]
      [("security.selinux", some [2])] "user.bad" 100000 (by decide)).1,
    (shift_file_drops_failed_xattr 0 0 33188 [("user.a", some [1])]
      [("security.selinux", some [2])] "user.bad" 100000 (by decide)).2.1⟩

/- ### The traversal of `main` -/

/-- Model of a filesystem subtree for the traversal of `main`.  `file`
covers regular files and symlinks to non-directories (listed by `os.walk`
among the files); `dirlink` is a symlink whose target is a directory
(listed among the subdirectories but, with `followlinks` off, not recursed
into); `dir` is a real directory with its children in listing order. -/
inductive FsTree where
  | file (name : String)
  | dirlink (name : String)
  | dir (name : String) (children : List FsTree)

/-- Path of a child inside a parent directory (`os.path.join`). -/
def joinPath (parent name : String) : String := parent ++ "/" ++ name

/-- Paths passed to `shift_file` by the `for fname in files` loop of
`main` for one visited directory. -/
def fileCalls (p : String) : List FsTree → List String
  | [] => []
  | .file n :: cs => joinPath p n :: fileCalls p cs
  | _ :: cs => fileCalls p cs

/-- Paths passed to `shift_file` by the `for dname in dirs` loop of
`main`, which shifts only the symlinks-to-directories at this level. -/
def linkCalls (p : String) : List FsTree → List String
  | [] => []
  | .dirlink n :: cs => joinPath p n :: linkCalls p cs
  | _ :: cs => linkCalls p cs

mutual
/-- Modelled from the documented semantics of
`os.walk(target, topdown=False)` composed with the loop body of `main`:
every real directory yields after all its subdirectories have yielded, and
for each yield `main` shifts the files, then the symlinks-to-directories,
then the directory itself.  Non-directory nodes yield no walk of their
own. -/
def walkTree (parent : String) : FsTree → List String
  | .file _ => []
  | .dirlink _ => []
  | .dir name cs =>
    walkChildren (joinPath parent name) cs
      ++ fileCalls (joinPath parent name) cs
      ++ linkCalls (joinPath parent name) cs
      ++ [joinPath parent name]

/-- Walks of the subdirectories of a directory, in listing order. -/
def walkChildren (p : String) : List FsTree → List String
  | [] => []
  | c :: cs => walkTree p c ++ walkChildren p cs
end

mutual
/-- Paths of every entry of a subtree, the subtree's own entry last. -/
def entryPaths (parent : String) : FsTree → List String
  | .file n => [joinPath parent n]
  | .dirlink n => [joinPath parent n]
  | .dir n cs => childPaths (joinPath parent n) cs ++ [joinPath parent n]

/-- Paths of every entry strictly below a directory. -/
def childPaths (p : String) : List FsTree → List String
  | [] => []
  | c :: cs => entryPaths p c ++ childPaths p cs
end

/-- Helper: every descendant of a directory is shifted somewhere inside
the walks of its subdirectories, its file calls or its link calls. -/
theorem childPaths_sub : ∀ (p : String) (cs : List FsTree) (q : String),
    q ∈ childPaths p cs →
    q ∈ walkChildren p cs ++ fileCalls p cs ++ linkCalls p cs
  | p, [], q, h => by simp [childPaths] at h
  | p, .file n :: cs, q, h => by
    have ih := fun hq => childPaths_sub p cs q hq
    simp only [childPaths, entryPaths, walkChildren, walkTree, fileCalls,
      linkCalls, List.mem_append, List.mem_cons, List.mem_singleton,
      List.nil_append, List.not_mem_nil] at h ih ⊢
    tauto
  | p, .dirlink n :: cs, q, h => by
    have ih := fun hq => childPaths_sub p cs q hq
    simp only [childPaths, entryPaths, walkChildren, walkTree, fileCalls,
      linkCalls, List.mem_append, List.mem_cons, List.mem_singleton,
      List.nil_append, List.not_mem_nil] at h ih ⊢
    tauto
  | p, .dir n cs' :: cs, q, h => by
    have ih1 := fun hq => childPaths_sub (joinPath p n) cs' q hq
    have ih2 := fun hq => childPaths_sub p cs q hq
    simp only [childPaths, entryPaths, walkChildren, walkTree, fileCalls,
      linkCalls, List.mem_append, List.mem_cons, List.mem_singleton] at h ih1 ih2 ⊢
    tauto
termination_by p cs q h => sizeOf cs

/-- C4: the traversal is bottom-up.  The walk of any directory consists of
the walks of its subdirectories first, then its regular files, then the
symlinks listed among the subdirectories, then the directory itself as the
final call; hence the directory's own path is the very last element of its
walk, and the path of every descendant entry occurs in the walk strictly
before that last position.  Instantiated at the target directory this makes
the top-level directory the very last operation of the whole walk, and
every visited subdirectory is the root of its own embedded walk. -/
theorem walk_bottom_up (parent name : String) (cs : List FsTree) :
    walkTree parent (.dir name cs)
      = walkChildren (joinPath parent name) cs
        ++ fileCalls (joinPath parent name) cs
        ++ linkCalls (joinPath parent name) cs
        ++ [joinPath parent name]
    ∧ (walkTree parent (.dir name cs)).getLast? = some (joinPath parent name)
    ∧ (childPaths (joinPath parent name) cs).all
        (fun q => decide (q ∈ (walkTree parent (.dir name cs)).dropLast)) = true := by
  have hunfold : walkTree parent (.dir name cs)
      = (walkChildren (joinPath parent name) cs
        ++ fileCalls (joinPath parent name) cs
        ++ linkCalls (joinPath parent name) cs) ++ [joinPath parent name] := rfl
  refine ⟨rfl, ?_, ?_⟩
  · rw [hunfold, List.getLast?_concat]
  · rw [List.all_eq_true]
    intro q hq
    rw [hunfold, List.dropLast_concat]
    exact decide_eq_true (childPaths_sub (joinPath parent name) cs q hq)

end Fuidshift
